import Mathlib

/-!
Shallow embedding of the jsonrpsee HTTP client protocol layer
(`client/http-client/src/client.rs`): identifier management, the single-call
path (`request`, `notification`), the batch path (`batch_request`), the
subscription stubs, and the timeout race.  Pure data (identifiers, envelopes,
errors) is translated directly from the source; the pieces of `jsonrpsee-core`
and `jsonrpsee-types` that the file calls but whose sources are not part of
this tree (`RequestIdManager`, `generate_batch_id_range`, `IdKind::into_id`,
`Id::try_parse_inner_as_number`, `ResponseSuccess::try_from`, the tokio
timeout race) are modelled from the specification, as marked on each
definition.  JSON (de)serialization is abstracted: a reply body is either
undecodable (`none`) or an already-decoded envelope over an opaque raw result
type `Raw`, and decoding a raw result into the caller's type `R` is an
explicit partial function `decodeR : Raw → Option R`.
-/

namespace Jsonrpsee

instance {ε α : Type} [DecidableEq ε] [DecidableEq α] :
    DecidableEq (Except ε α) := fun x y =>
  match x, y with
  | .ok a, .ok b => decidable_of_iff (a = b) (by simp)
  | .error a, .error b => decidable_of_iff (a = b) (by simp)
  | .ok _, .error _ => isFalse fun h => Except.noConfusion h
  | .error _, .ok _ => isFalse fun h => Except.noConfusion h

/-- Modelled from the spec: a JSON-RPC identifier is a discriminated value,
either a non-negative integer or a string (`jsonrpsee_types::Id`, which also
has a `Null` variant used only on the wire). -/
inductive Id where
  | num (n : Nat)
  | str (s : String)
  | null
deriving DecidableEq, Repr

/-- Modelled from the spec: the `Display` rendering of an identifier used when
an `InvalidRequestId` error names the offending identifier
(`response.id.to_string()`); a numeric identifier renders as its decimal
digits. -/
def Id.render : Id → String
  | .num n => toString n
  | .str s => s
  | .null => "null"

/-- Modelled from the spec: `Id::try_parse_inner_as_number` — a numeric
identifier yields its value, a string identifier is parsed as a decimal
number, anything else is an invalid-identifier failure carrying the rendered
identifier. -/
def Id.try_parse_inner_as_number : Id → Except String Nat
  | .num n => .ok n
  | .str s =>
    match s.toNat? with
    | some n => .ok n
    | none => .error s
  | .null => .error "null"

/-- Modelled from the spec: the configured identifier kind — numeric or
string-typed identifiers for a client (`IdKind`). -/
inductive IdKind where
  | number
  | string
deriving DecidableEq, Repr

/-- Modelled from the spec: `IdKind::into_id` converts a counter value into an
identifier of the configured kind; the string kind renders the value as its
decimal digits. -/
def IdKind.into_id : IdKind → Nat → Id
  | .number, n => .num n
  | .string, n => .str (toString n)

/-- A JSON-RPC error object: code, message and optional data
(`ErrorObject`); the data payload is kept as opaque raw JSON text. -/
structure ErrorObject where
  code : Int
  message : String
  data : Option String
deriving DecidableEq, Repr

/-- The placeholder every batch reply slot is pre-initialized with:
`ErrorObject::borrowed(0, "", None)` (client.rs line 441). -/
def placeholderError : ErrorObject := ⟨0, "", none⟩

/-- The payload of a decoded reply envelope: either a success carrying a raw
result value, or a JSON-RPC error object. -/
inductive ResponsePayload (Raw : Type) where
  | success (result : Raw)
  | error (err : ErrorObject)
deriving DecidableEq, Repr

/-- A decoded loosely-typed reply envelope (`Response<&JsonRawValue>`):
an identifier plus a success/error payload. -/
structure Response (Raw : Type) where
  id : Id
  payload : ResponsePayload Raw
deriving DecidableEq, Repr

/-- A reply envelope known to be a success (`ResponseSuccess`). -/
structure ResponseSuccess (Raw : Type) where
  id : Id
  result : Raw
deriving DecidableEq, Repr

/-- Modelled from the spec: `ResponseSuccess::try_from` — a success envelope
converts, an error envelope yields its error object (which the `?` operator
at the call sites turns into a protocol `Call` error). -/
def ResponseSuccess.try_from {Raw : Type} (rp : Response Raw) :
    Except ErrorObject (ResponseSuccess Raw) :=
  match rp.payload with
  | .success r => .ok ⟨rp.id, r⟩
  | .error e => .error e

/-- The two shapes of `InvalidRequestId` produced by this client: an
identifier that could not be interpreted, and a reply identifier that does
not correspond to a pending request. Both carry the rendered identifier. -/
inductive InvalidRequestId where
  | invalid (s : String)
  | notPendingRequest (s : String)
deriving DecidableEq, Repr

/-- The error taxonomy surfaced by the client (`jsonrpsee_core::client::Error`
restricted to the variants this file can produce). `parseError` covers both
outbound serialization failures and inbound payloads that fail to decode;
`call` is a well-formed JSON-RPC error object returned by the server;
`emptyBatchRequest` is the batch builder rejecting an empty batch;
`batchRangeOverflow` is identifier-range allocation exceeding the counter's
representable maximum. -/
inductive RpcError where
  | parseError
  | transport
  | requestTimeout
  | call (e : ErrorObject)
  | invalidRequestId (e : InvalidRequestId)
  | httpNotImplemented
  | emptyBatchRequest
  | batchRangeOverflow
deriving DecidableEq, Repr

/-- The shared mutable state of one client: the `RequestIdManager`'s running
counter (an atomic integer in the source; the concurrency gate's permit count
is the only other shared state and every call releases its permit on exit, so
it is not tracked here). -/
structure ClientState where
  counter : Nat
deriving DecidableEq, Repr

/-- Modelled from the spec: `RequestIdManager::next_request_id` — one atomic
fetch-and-add of 1 on the shared counter, the fetched value converted to an
identifier of the configured kind. -/
def next_request_id (kind : IdKind) (st : ClientState) : Id × ClientState :=
  (kind.into_id st.counter, ⟨st.counter + 1⟩)

/-- The largest value representable by the source's 64-bit identifier
counter. -/
def U64MAX : Nat := 2 ^ 64 - 1

/-- Modelled from the spec: `generate_batch_id_range id len` — interpret the
freshly issued identifier as a number and reserve the contiguous range
`[start, start + len)`, failing (not panicking) if the range end would exceed
the counter's representable maximum.  It takes the identifier by value and
does not touch the shared counter. -/
def generate_batch_id_range (id : Id) (len : Nat) :
    Except RpcError (Nat × Nat) :=
  match id.try_parse_inner_as_number with
  | .error s => .error (.invalidRequestId (.invalid s))
  | .ok start =>
    if start + len ≤ U64MAX then .ok (start, start + len)
    else .error .batchRangeOverflow

/-- Outcome of racing the transport operation against the per-call timeout:
the timer elapsed first, the transport failed in time, or the transport
delivered a body in time. -/
inductive TransportOutcome (β : Type) where
  | timeout
  | transportError
  | body (b : β)
deriving DecidableEq, Repr

/-- Modelled from the spec: the `tokio::time::timeout(request_timeout, fut)`
race, over discrete time — the transport's own outcome `res` arrives at time
`arrival`; it is reflected when it arrives within the timeout `T`, and
discarded in favour of a timeout otherwise. -/
def raceTimeout {β : Type} (T arrival : Nat) (res : Except Unit β) :
    TransportOutcome β :=
  if arrival ≤ T then
    match res with
    | .ok b => .body b
    | .error _ => .transportError
  else .timeout

/-- The reply-handling tail of a single call (client.rs lines 389-399): decode
the body into a loosely-typed envelope (`none` models a body that fails to
decode), convert to a success envelope (an error envelope becomes a `call`
error via `?`), decode the raw result into the caller's type (failure is a
`parseError`), and only then validate that the reply identifier equals the
identifier sent — a mismatch discards the decoded result and fails with
`InvalidRequestId::NotPendingRequest` naming the reply's identifier. -/
def decodeSingleReply {Raw R : Type} (decodeR : Raw → Option R) (sentId : Id)
    (body : Option (Response Raw)) : Except RpcError R :=
  match body with
  | none => .error .parseError
  | some rp =>
    match ResponseSuccess.try_from rp with
    | .error e => .error (.call e)
    | .ok resp =>
      match decodeR resp.result with
      | none => .error .parseError
      | some result =>
        if resp.id = sentId then .ok result
        else .error (.invalidRequestId (.notPendingRequest resp.id.render))

/-- One single call (`ClientT::request`, client.rs lines 362-400): acquire the
gate permit (released on every exit path, so not tracked in the state), draw
one fresh identifier, serialize the params and envelope (`params = none`
models a params/serialization failure, which surfaces as a `parseError`),
race the transport exchange against the timeout, then run the reply tail.
Returns the call outcome together with the client state after the call. -/
def request {Raw R : Type} (decodeR : Raw → Option R) (kind : IdKind)
    (st : ClientState) (params : Option (Option String)) (T arrival : Nat)
    (transport : Except Unit (Option (Response Raw))) :
    Except RpcError R × ClientState :=
  let (id, st2) := next_request_id kind st
  match params with
  | none => (.error .parseError, st2)
  | some _ =>
    match raceTimeout T arrival transport with
    | .timeout => (.error .requestTimeout, st2)
    | .transportError => (.error .transport, st2)
    | .body b => (decodeSingleReply decodeR id b, st2)

/-- One notification (`ClientT::notification`, client.rs lines 340-360): no
identifier is drawn; the serialized envelope (`params = none` models a
serialization failure) is handed to the transport's fire-and-forget send,
raced against the timeout. -/
def notification (st : ClientState) (params : Option (Option String))
    (T arrival : Nat) (transport : Except Unit Unit) :
    Except RpcError Unit × ClientState :=
  match params with
  | none => (.error .parseError, st)
  | some _ =>
    match raceTimeout T arrival transport with
    | .timeout => (.error .requestTimeout, st)
    | .transportError => (.error .transport, st)
    | .body _ => (.ok (), st)

/-- One serialized batch entry (`RequestSer`): the envelope's identifier,
method name and optional pre-serialized params. -/
structure RequestSer where
  id : Id
  method : String
  params : Option String
deriving DecidableEq, Repr

/-- The serialized batch envelope (client.rs lines 415-424): each batch entry
is zipped with the allocated identifier range, entry `i` receiving the range
value `base + i` converted through the configured identifier kind. -/
def buildBatchEnvelope (kind : IdKind) (base : Nat)
    (batch : List (String × Option String)) : List RequestSer :=
  (batch.zip (List.range' base batch.length)).map
    (fun e => ⟨kind.into_id e.2, e.1.1, e.1.2⟩)

/-- The per-entry reply computation inside the batch loop (client.rs lines
447-457): an error envelope is kept as that slot's protocol error object; a
success envelope has its raw result decoded into the caller's type, where a
decode failure propagates through `?` as a whole-call `parseError`. -/
def entryResult {Raw R : Type} (decodeR : Raw → Option R) (rp : Response Raw) :
    Except RpcError (Except ErrorObject R) :=
  match ResponseSuccess.try_from rp with
  | .ok r =>
    match decodeR r.result with
    | none => .error .parseError
    | some result => .ok (.ok result)
  | .error err => .ok (.error err)

/-- The per-entry update of the two counters (client.rs lines 450 and 454):
a success outcome bumps `successful_calls`, an error outcome bumps
`failed_calls`. -/
def bumpCounts {R : Type} (succ fail : Nat) : Except ErrorObject R → Nat × Nat
  | .ok _ => (succ + 1, fail)
  | .error _ => (succ, fail + 1)

/-- The batch reply loop (client.rs lines 444-469), processing decoded reply
entries in arrival order over the accumulator (successful count, failed
count, positional slot list): parse the entry's identifier as a number
(failure is a whole-call `InvalidRequestId`), compute the entry's outcome
(counting it as successful or failed), recover the slot as
`identifier - base` (`checked_sub` plus `responses.get_mut`), and write the
outcome into that slot; a slot below `base` or at or beyond the current slot
list's length fails the whole call with `InvalidRequestId` naming the parsed
identifier. -/
def batchLoop {Raw R : Type} (decodeR : Raw → Option R) (base : Nat) :
    List (Response Raw) → Nat × Nat × List (Except ErrorObject R) →
    Except RpcError (Nat × Nat × List (Except ErrorObject R))
  | [], acc => .ok acc
  | rp :: rest, (succ, fail, responses) =>
    match rp.id.try_parse_inner_as_number with
    | .error s => .error (.invalidRequestId (.invalid s))
    | .ok idNum =>
      match entryResult decodeR rp with
      | .error e => .error e
      | .ok res =>
        if base ≤ idNum ∧ idNum - base < responses.length then
          batchLoop decodeR base rest
            ((bumpCounts succ fail res).1, (bumpCounts succ fail res).2,
              responses.set (idNum - base) res)
        else .error (.invalidRequestId (.notPendingRequest (toString idNum)))

/-- The reply-handling tail of a batch call (client.rs lines 434-469): the
slot list is pre-initialized with one placeholder error per decoded reply
entry (`Vec::with_capacity(json_rps.len())` filled by the push loop), then
the batch loop scatters each entry. -/
def processReplies {Raw R : Type} (decodeR : Raw → Option R) (base : Nat)
    (rps : List (Response Raw)) :
    Except RpcError (Nat × Nat × List (Except ErrorObject R)) :=
  batchLoop decodeR base rps
    (0, 0, List.replicate rps.length (.error placeholderError))

/-- A successful batch outcome (`BatchResponse::new(successful_calls,
responses, failed_calls)`). -/
structure BatchOk (R : Type) where
  successful : Nat
  responses : List (Except ErrorObject R)
  failed : Nat
deriving Repr

instance {R : Type} [DecidableEq R] : DecidableEq (BatchOk R) := fun a b =>
  decidable_of_iff
    (a.successful = b.successful ∧ a.responses = b.responses ∧ a.failed = b.failed)
    (by cases a; cases b; simp)

/-- One batch call (`ClientT::batch_request`, client.rs lines 402-472):
acquire the gate permit, build the batch (an empty batch is a build failure
before any identifier is drawn), draw one fresh identifier and derive the
contiguous range `[base, base + N)` from it, serialize the envelope
(`buildBatchEnvelope`, whose serialization to text always succeeds on
well-formed entries), race the single transport exchange against the
timeout (`body = none` models a reply body that fails to decode as an array
of envelopes), and scatter the decoded reply entries. -/
def batch_request {Raw R : Type} (decodeR : Raw → Option R) (kind : IdKind)
    (st : ClientState) (batch : List (String × Option String))
    (T arrival : Nat) (transport : Except Unit (Option (List (Response Raw)))) :
    Except RpcError (BatchOk R) × ClientState :=
  if batch.isEmpty then (.error .emptyBatchRequest, st)
  else
    let (id, st2) := next_request_id kind st
    match generate_batch_id_range id batch.length with
    | .error e => (.error e, st2)
    | .ok range =>
      match raceTimeout T arrival transport with
      | .timeout => (.error .requestTimeout, st2)
      | .transportError => (.error .transport, st2)
      | .body none => (.error .parseError, st2)
      | .body (some rps) =>
        match processReplies decodeR range.1 rps with
        | .error e => (.error e, st2)
        | .ok out => (.ok ⟨out.1, out.2.2, out.2.1⟩, st2)

/-- `SubscriptionClientT::subscribe` for the HTTP client (client.rs lines
487-498): the body is a bare `Err(Error::HttpNotImplemented)` — no
serialization, no identifier allocation, no gate acquisition, no transport
call; the shared state is returned untouched. -/
def subscribe (st : ClientState) (_subscribeMethod : String)
    (_params : Option String) (_unsubscribeMethod : String) :
    Except RpcError Unit × ClientState :=
  (.error .httpNotImplemented, st)

/-- `SubscriptionClientT::subscribe_to_method` for the HTTP client (client.rs
lines 502-507): likewise a bare `Err(Error::HttpNotImplemented)`. -/
def subscribe_to_method (st : ClientState) (_method : String) :
    Except RpcError Unit × ClientState :=
  (.error .httpNotImplemented, st)

/-- An identifier-consuming operation on the shared counter: a single call's
identifier draw, or a batch's draw-plus-range derivation for a batch of `n`
entries.  Because both are a single atomic access to the shared counter,
every concurrent interleaving of calls is linearized as a sequence of these
operations. -/
inductive ClientOp where
  | single
  | batchAlloc (n : Nat)
deriving DecidableEq, Repr

/-- What one operation issued: a single-call identifier, an allocated batch
range `[base, stop)`, or an allocation failure. -/
inductive Issued where
  | singleId (n : Nat)
  | range (base stop : Nat)
  | allocFailed
deriving DecidableEq, Repr

/-- One allocation step, exactly as the call sites perform it (client.rs
lines 372 and 412-413): both a single call and a batch call draw one
identifier via `next_request_id`; the batch then derives its range from that
identifier without touching the counter again. -/
def allocStep : ClientOp → ClientState → Issued × ClientState
  | .single, st =>
    let (id, st2) := next_request_id .number st
    match id.try_parse_inner_as_number with
    | .ok n => (.singleId n, st2)
    | .error _ => (.allocFailed, st2)
  | .batchAlloc n, st =>
    let (id, st2) := next_request_id .number st
    match generate_batch_id_range id n with
    | .ok r => (.range r.1 r.2, st2)
    | .error _ => (.allocFailed, st2)

/-- Run a linearized sequence of identifier-consuming operations against the
shared counter, collecting what each issued. -/
def runOps : List ClientOp → ClientState → List Issued × ClientState
  | [], st => ([], st)
  | op :: rest, st =>
    let (i, st2) := allocStep op st
    let (is, st3) := runOps rest st2
    (i :: is, st3)

/-- Membership of an identifier value in what an operation issued. -/
def Issued.covers (n : Nat) : Issued → Prop
  | .singleId m => n = m
  | .range base stop => base ≤ n ∧ n < stop
  | .allocFailed => False

/-- The identifiers issued to single calls within a trace, in issue order. -/
def singleIds (l : List Issued) : List Nat :=
  l.filterMap fun i =>
    match i with
    | .singleId n => some n
    | _ => none

theorem bumpCounts_sum {R : Type} (succ fail : Nat) (res : Except ErrorObject R) :
    (bumpCounts succ fail res).1 + (bumpCounts succ fail res).2
      = succ + fail + 1 := by
  cases res <;> simp [bumpCounts] <;> omega

theorem batchLoop_length {Raw R : Type} (decodeR : Raw → Option R) (base : Nat) :
    ∀ (rps : List (Response Raw)) (succ fail : Nat)
      (responses : List (Except ErrorObject R))
      (out : Nat × Nat × List (Except ErrorObject R)),
      batchLoop decodeR base rps (succ, fail, responses) = Except.ok out →
      out.2.2.length = responses.length := by
  intro rps
  induction rps with
  | nil =>
    intro succ fail responses out h
    simp only [batchLoop] at h
    cases h
    rfl
  | cons rp rest ih =>
    intro succ fail responses out h
    simp only [batchLoop] at h
    split at h
    · exact Except.noConfusion h
    · split at h
      · exact Except.noConfusion h
      · split at h
        · have := ih _ _ _ _ h
          rwa [List.length_set] at this
        · exact Except.noConfusion h

theorem batchLoop_sum {Raw R : Type} (decodeR : Raw → Option R) (base : Nat) :
    ∀ (rps : List (Response Raw)) (succ fail : Nat)
      (responses : List (Except ErrorObject R))
      (out : Nat × Nat × List (Except ErrorObject R)),
      batchLoop decodeR base rps (succ, fail, responses) = Except.ok out →
      out.1 + out.2.1 = succ + fail + rps.length := by
  intro rps
  induction rps with
  | nil =>
    intro succ fail responses out h
    simp only [batchLoop] at h
    cases h
    simp
  | cons rp rest ih =>
    intro succ fail responses out h
    simp only [batchLoop] at h
    split at h
    · exact Except.noConfusion h
    · split at h
      · exact Except.noConfusion h
      next res heq =>
        split at h
        · have hrec := ih _ _ _ _ h
          have hb := bumpCounts_sum (R := R) succ fail res
          simp only [List.length_cons]
          omega
        · exact Except.noConfusion h

theorem batchLoop_frame {Raw R : Type} (decodeR : Raw → Option R)
    (base j : Nat) :
    ∀ (rps : List (Response Raw)) (succ fail : Nat)
      (responses : List (Except ErrorObject R))
      (out : Nat × Nat × List (Except ErrorObject R)),
      batchLoop decodeR base rps (succ, fail, responses) = Except.ok out →
      (∀ rp ∈ rps, ∀ m, rp.id.try_parse_inner_as_number = Except.ok m →
        m - base ≠ j) →
      out.2.2[j]? = responses[j]? := by
  intro rps
  induction rps with
  | nil =>
    intro succ fail responses out h _
    simp only [batchLoop] at h
    cases h
    rfl
  | cons rp rest ih =>
    intro succ fail responses out h hmiss
    simp only [batchLoop] at h
    split at h
    · exact Except.noConfusion h
    next idNum hp =>
      split at h
      · exact Except.noConfusion h
      · split at h
        · have hrec := ih _ _ _ _ h
            (fun x hx m hm => hmiss x (List.mem_cons_of_mem rp hx) m hm)
          rw [hrec, List.getElem?_set_ne
            (hmiss rp (List.mem_cons_self rp rest) idNum hp)]
        · exact Except.noConfusion h

theorem batchLoop_total {Raw R : Type} (decodeR : Raw → Option R) (base : Nat) :
    ∀ (rps : List (Response Raw)) (succ fail : Nat)
      (responses : List (Except ErrorObject R)),
      (∀ rp ∈ rps,
        (∃ n, rp.id.try_parse_inner_as_number = Except.ok n
          ∧ base ≤ n ∧ n - base < responses.length)
        ∧ ∃ res, entryResult decodeR rp = Except.ok res) →
      ∃ out, batchLoop decodeR base rps (succ, fail, responses)
        = Except.ok out := by
  intro rps
  induction rps with
  | nil => intro succ fail responses _; exact ⟨_, rfl⟩
  | cons rp rest ih =>
    intro succ fail responses hgood
    obtain ⟨⟨n, hp, hge, hlt⟩, res, he⟩ :=
      hgood rp (List.mem_cons_self rp rest)
    simp only [batchLoop, hp, he]
    rw [if_pos ⟨hge, hlt⟩]
    exact ih _ _ _ fun x hx => by
      have := hgood x (List.mem_cons_of_mem rp hx)
      rwa [List.length_set]

theorem batchLoop_succ_of_errors {Raw R : Type} (decodeR : Raw → Option R)
    (base : Nat) :
    ∀ (rps : List (Response Raw)) (succ fail : Nat)
      (responses : List (Except ErrorObject R))
      (out : Nat × Nat × List (Except ErrorObject R)),
      batchLoop decodeR base rps (succ, fail, responses) = Except.ok out →
      (∀ rp ∈ rps, ∃ e, rp.payload = ResponsePayload.error e) →
      out.1 = succ := by
  intro rps
  induction rps with
  | nil =>
    intro succ fail responses out h _
    simp only [batchLoop] at h
    cases h
    rfl
  | cons rp rest ih =>
    intro succ fail responses out h herr
    obtain ⟨e, hpayload⟩ := herr rp (List.mem_cons_self rp rest)
    have hres : entryResult decodeR rp = Except.ok (Except.error e) := by
      simp only [entryResult, ResponseSuccess.try_from, hpayload]
    simp only [batchLoop, hres] at h
    split at h
    · exact Except.noConfusion h
    · split at h
      · have := ih _ _ _ _ h
          (fun x hx => herr x (List.mem_cons_of_mem rp hx))
        simpa [bumpCounts] using this
      · exact Except.noConfusion h

theorem batchLoop_scatter {Raw R : Type} (decodeR : Raw → Option R)
    (base : Nat) :
    ∀ (rps : List (Response Raw)) (succ fail : Nat)
      (responses : List (Except ErrorObject R))
      (out : Nat × Nat × List (Except ErrorObject R)),
      batchLoop decodeR base rps (succ, fail, responses) = Except.ok out →
      (∀ rp ∈ rps, ∀ m, rp.id.try_parse_inner_as_number = Except.ok m →
        base ≤ m) →
      rps.Pairwise (fun a b => ∀ m n,
        a.id.try_parse_inner_as_number = Except.ok m →
        b.id.try_parse_inner_as_number = Except.ok n → m ≠ n) →
      ∀ rp ∈ rps, ∀ n res, rp.id.try_parse_inner_as_number = Except.ok n →
        entryResult decodeR rp = Except.ok res →
        out.2.2[n - base]? = some res := by
  intro rps
  induction rps with
  | nil => intro _ _ _ _ _ _ _ rp hrp; exact absurd hrp (List.not_mem_nil rp)
  | cons rp0 rest ih =>
    intro succ fail responses out h hge hpw rp hrp n res hp he
    obtain ⟨hpw0, hpwrest⟩ := List.pairwise_cons.mp hpw
    rcases List.mem_cons.mp hrp with rfl | hrp'
    · simp only [batchLoop, hp, he] at h
      split at h
      next hin =>
        have hframe := batchLoop_frame decodeR base (n - base) _ _ _ _ _ h
          (fun x hx m hm => by
            have hmn : m ≠ n := fun hcontra =>
              (hpw0 x hx n m hp hm) (hcontra ▸ rfl)
            have hgem : base ≤ m :=
              hge x (List.mem_cons_of_mem _ hx) m hm
            omega)
        rw [hframe, List.getElem?_set_eq_of_lt _ hin.2]
      next => exact Except.noConfusion h
    · simp only [batchLoop] at h
      split at h
      · exact Except.noConfusion h
      · split at h
        · exact Except.noConfusion h
        · split at h
          · exact ih _ _ _ _ h
              (fun x hx m hm => hge x (List.mem_cons_of_mem _ hx) m hm)
              hpwrest rp hrp' n res hp he
          · exact Except.noConfusion h

theorem batchLoop_abort_decode {Raw R : Type} (decodeR : Raw → Option R)
    (base : Nat) :
    ∀ (l1 : List (Response Raw)) (rp : Response Raw)
      (l2 : List (Response Raw)) (succ fail : Nat)
      (responses : List (Except ErrorObject R)),
      (∀ x ∈ l1,
        (∃ n, x.id.try_parse_inner_as_number = Except.ok n
          ∧ base ≤ n ∧ n - base < responses.length)
        ∧ ∃ res, entryResult decodeR x = Except.ok res) →
      ∀ n raw, rp.id.try_parse_inner_as_number = Except.ok n →
      rp.payload = ResponsePayload.success raw →
      decodeR raw = none →
      batchLoop decodeR base (l1 ++ rp :: l2) (succ, fail, responses)
        = Except.error RpcError.parseError := by
  intro l1
  induction l1 with
  | nil =>
    intro rp l2 succ fail responses _ n raw hp hpayload hdec
    have hres : entryResult decodeR rp = Except.error RpcError.parseError := by
      simp only [entryResult, ResponseSuccess.try_from, hpayload, hdec]
    simp only [List.nil_append, batchLoop, hp, hres]
  | cons x l1t ih =>
    intro rp l2 succ fail responses hgood n raw hp hpayload hdec
    obtain ⟨⟨m, hpm, hge, hlt⟩, res, he⟩ :=
      hgood x (List.mem_cons_self x l1t)
    simp only [List.cons_append, batchLoop, hpm, he]
    rw [if_pos ⟨hge, hlt⟩]
    exact ih rp l2 _ _ _
      (fun y hy => by
        have := hgood y (List.mem_cons_of_mem x hy)
        rwa [List.length_set])
      n raw hp hpayload hdec

theorem batchLoop_abort_slot {Raw R : Type} (decodeR : Raw → Option R)
    (base : Nat) :
    ∀ (l1 : List (Response Raw)) (rp : Response Raw)
      (l2 : List (Response Raw)) (succ fail : Nat)
      (responses : List (Except ErrorObject R)),
      (∀ x ∈ l1,
        (∃ n, x.id.try_parse_inner_as_number = Except.ok n
          ∧ base ≤ n ∧ n - base < responses.length)
        ∧ ∃ res, entryResult decodeR x = Except.ok res) →
      ∀ n res, rp.id.try_parse_inner_as_number = Except.ok n →
      entryResult decodeR rp = Except.ok res →
      ¬(base ≤ n ∧ n - base < responses.length) →
      batchLoop decodeR base (l1 ++ rp :: l2) (succ, fail, responses)
        = Except.error (RpcError.invalidRequestId
            (InvalidRequestId.notPendingRequest (toString n))) := by
  intro l1
  induction l1 with
  | nil =>
    intro rp l2 succ fail responses _ n res hp he hbad
    simp only [List.nil_append, batchLoop, hp, he]
    rw [if_neg hbad]
  | cons x l1t ih =>
    intro rp l2 succ fail responses hgood n res hp he hbad
    obtain ⟨⟨m, hpm, hge, hlt⟩, res2, he2⟩ :=
      hgood x (List.mem_cons_self x l1t)
    simp only [List.cons_append, batchLoop, hpm, he2]
    rw [if_pos ⟨hge, hlt⟩]
    exact ih rp l2 _ _ _
      (fun y hy => by
        have := hgood y (List.mem_cons_of_mem x hy)
        rwa [List.length_set])
      n res hp he (by rwa [List.length_set])

theorem batch_request_eq {Raw R : Type} (decodeR : Raw → Option R)
    (kind : IdKind) (st : ClientState)
    (batch : List (String × Option String)) (T arrival : Nat)
    (rps : List (Response Raw)) (base stop : Nat)
    (hne : batch ≠ [])
    (hgen : generate_batch_id_range (kind.into_id st.counter) batch.length
      = Except.ok (base, stop))
    (harr : arrival ≤ T) :
    batch_request decodeR kind st batch T arrival (Except.ok (some rps)) =
      (match processReplies (R := R) decodeR base rps with
       | .error e => (.error e, ⟨st.counter + 1⟩)
       | .ok out => (.ok ⟨out.1, out.2.2, out.2.1⟩, ⟨st.counter + 1⟩)) := by
  have hemp : batch.isEmpty = false := List.isEmpty_eq_false.mpr hne
  simp only [batch_request, hemp, Bool.false_eq_true, if_false,
    next_request_id, hgen, raceTimeout, if_pos harr]

/-- Claim C1, amended.  For a single call answered within the timeout by a
reply that decodes to a success envelope whose raw result decodes into the
caller's requested type: if the reply's identifier equals the identifier
sent, the call returns the decoded result; if it differs, the call fails
with an `InvalidRequestId` error naming the reply's identifier.  Moreover,
whenever the reply's identifier differs from the identifier sent — whatever
the reply looks like — the call never returns a value.  (The unamended claim
also demanded `InvalidRequestId` for mismatched replies that are error
envelopes or whose result does not decode; those fail with the protocol
error, resp. a parse error, because the source checks the identifier only
after both decodes — see the counterexample.) -/
theorem C1_single_call_id_validation {Raw R : Type} (decodeR : Raw → Option R)
    (kind : IdKind) (st : ClientState) (p : Option String) (T arrival : Nat)
    (rp : Response Raw) (raw : Raw) (v : R)
    (harr : arrival ≤ T)
    (hpayload : rp.payload = ResponsePayload.success raw)
    (hdec : decodeR raw = some v) :
    (rp.id = kind.into_id st.counter →
      (request decodeR kind st (some p) T arrival (Except.ok (some rp))).1
        = Except.ok v)
    ∧ (rp.id ≠ kind.into_id st.counter →
      (request decodeR kind st (some p) T arrival (Except.ok (some rp))).1
        = Except.error (RpcError.invalidRequestId
            (InvalidRequestId.notPendingRequest rp.id.render)))
    ∧ (∀ body : Option (Response Raw),
        (∀ rp2 ∈ body, rp2.id ≠ kind.into_id st.counter) → ∀ w : R,
        (request decodeR kind st (some p) T arrival (Except.ok body)).1
          ≠ Except.ok w) := by
  refine ⟨?_, ?_, ?_⟩
  · intro hid
    simp [request, next_request_id, raceTimeout, if_pos harr,
      decodeSingleReply, ResponseSuccess.try_from, hpayload, hdec, hid]
  · intro hid
    simp [request, next_request_id, raceTimeout, if_pos harr,
      decodeSingleReply, ResponseSuccess.try_from, hpayload, hdec, hid]
  · intro body hbody w
    cases body with
    | none =>
      simp [request, next_request_id, raceTimeout, if_pos harr,
        decodeSingleReply]
    | some rp2 =>
      have hne : rp2.id ≠ kind.into_id st.counter := hbody rp2 (by simp)
      cases hpl : rp2.payload with
      | error e =>
        simp [request, next_request_id, raceTimeout, if_pos harr,
          decodeSingleReply, ResponseSuccess.try_from, hpl]
      | success raw2 =>
        cases hd2 : decodeR raw2 with
        | none =>
          simp [request, next_request_id, raceTimeout, if_pos harr,
            decodeSingleReply, ResponseSuccess.try_from, hpl, hd2]
        | some v2 =>
          simp [request, next_request_id, raceTimeout, if_pos harr,
            decodeSingleReply, ResponseSuccess.try_from, hpl, hd2, hne]

/-- Claim C1 counterexample.  A single call sends identifier `1`; the server
replies with identifier `2` (a mismatch) and an error envelope
`{"code": -32000, "message": "boom"}`.  The claim requires the call to fail
with `InvalidRequestId` naming `"2"`; the code instead surfaces the reply's
protocol error object as a `call` error, because `ResponseSuccess::try_from`
runs before the identifier is compared (client.rs lines 391-399). -/
theorem C1_counterexample :
    (request (fun n : Nat => some n) IdKind.number ⟨1⟩ (some none) 10 5
        (Except.ok (some ⟨Id.num 2,
          ResponsePayload.error ⟨-32000, "boom", none⟩⟩))).1
      = Except.error (RpcError.call ⟨-32000, "boom", none⟩)
    ∧ (request (fun n : Nat => some n) IdKind.number ⟨1⟩ (some none) 10 5
        (Except.ok (some ⟨Id.num 2,
          ResponsePayload.error ⟨-32000, "boom", none⟩⟩))).1
      ≠ Except.error (RpcError.invalidRequestId
          (InvalidRequestId.notPendingRequest "2")) := by
  exact ⟨by decide, by decide⟩

/-- Witness for C1: the client at counter `0` (numeric identifiers) receives
the matching reply `{"id": 0, "result": 42}` within the timeout and the call
returns `42`. -/
theorem C1_witness :
    (request (fun n : Nat => some n) IdKind.number ⟨0⟩ (some none) 10 5
        (Except.ok (some ⟨Id.num 0, ResponsePayload.success 42⟩))).1
      = Except.ok 42 :=
  (C1_single_call_id_validation (fun n : Nat => some n) IdKind.number ⟨0⟩
      none 10 5 ⟨Id.num 0, ResponsePayload.success 42⟩ 42 42
      (by decide) rfl rfl).1 rfl

/-- Claim C2, amended.  For a batch over `N ≥ 1` entries answered within the
timeout: the allocated identifier range is exactly the `N` contiguous values
`[base, base + N)` with `base` the freshly drawn counter value; and when
every decoded reply entry carries a distinct in-range identifier and its
payload resolves, the call returns a positional result sequence whose length
equals the number of decoded reply entries — equal to `N` exactly when the
server replies to each entry once — in which each reply sits at slot
`identifier − base` regardless of the order in which the reply entries
appeared.  (The unamended claim asserted the returned sequence always has
length `N`; the source sizes it by the reply count `json_rps.len()` instead
— see the counterexample.) -/
theorem C2_batch_range_and_scatter {Raw R : Type} (decodeR : Raw → Option R)
    (kind : IdKind) (st : ClientState)
    (batch : List (String × Option String)) (T arrival : Nat)
    (rps : List (Response Raw))
    (hne : batch ≠ [])
    (hparse : (kind.into_id st.counter).try_parse_inner_as_number
      = Except.ok st.counter)
    (hno : st.counter + batch.length ≤ U64MAX)
    (harr : arrival ≤ T)
    (hgood : ∀ rp ∈ rps,
      (∃ n, rp.id.try_parse_inner_as_number = Except.ok n
        ∧ st.counter ≤ n ∧ n - st.counter < rps.length)
      ∧ ∃ res, entryResult decodeR rp = Except.ok res)
    (hinj : rps.Pairwise (fun a b => ∀ m n,
      a.id.try_parse_inner_as_number = Except.ok m →
      b.id.try_parse_inner_as_number = Except.ok n → m ≠ n)) :
    generate_batch_id_range (kind.into_id st.counter) batch.length
      = Except.ok (st.counter, st.counter + batch.length)
    ∧ ∃ out : BatchOk R,
        batch_request decodeR kind st batch T arrival (Except.ok (some rps))
          = (Except.ok out, ⟨st.counter + 1⟩)
        ∧ out.responses.length = rps.length
        ∧ (∀ rp ∈ rps, ∀ n res,
            rp.id.try_parse_inner_as_number = Except.ok n →
            entryResult decodeR rp = Except.ok res →
            out.responses[n - st.counter]? = some res) := by
  have hgen : generate_batch_id_range (kind.into_id st.counter) batch.length
      = Except.ok (st.counter, st.counter + batch.length) := by
    simp only [generate_batch_id_range, hparse]
    rw [if_pos hno]
  refine ⟨hgen, ?_⟩
  obtain ⟨pout, hpout⟩ := batchLoop_total decodeR st.counter rps 0 0
    (List.replicate rps.length (Except.error placeholderError))
    (fun rp hrp => by
      have := hgood rp hrp
      rwa [List.length_replicate])
  have hpr : processReplies decodeR st.counter rps = Except.ok pout := by
    simpa [processReplies] using hpout
  have hlen := batchLoop_length decodeR st.counter rps 0 0 _ _ hpout
  have hscatter := batchLoop_scatter decodeR st.counter rps 0 0 _ _ hpout
    (fun x hx m hm => by
      obtain ⟨⟨n, hpn, hgen2, _⟩, _⟩ := hgood x hx
      rw [hpn] at hm
      obtain rfl := Except.ok.inj hm
      exact hgen2)
    hinj
  refine ⟨⟨pout.1, pout.2.2, pout.2.1⟩, ?_, ?_, ?_⟩
  · rw [batch_request_eq decodeR kind st batch T arrival rps st.counter
      (st.counter + batch.length) hne hgen harr]
    simp only [hpr]
  · simpa [List.length_replicate] using hlen
  · intro rp hrp n res hpn hres
    exact hscatter rp hrp n res hpn hres

/-- Claim C2 counterexample.  A batch of `N = 2` requests is answered by a
single reply entry (identifier `0`, an error envelope): the call returns
`Ok` with a positional result sequence of length 1, not `N = 2` — the
sequence is sized by the number of decoded reply entries, so the second
request's slot does not exist at all. -/
theorem C2_counterexample :
    (batch_request (fun n : Nat => some n) IdKind.number ⟨0⟩
        [("m1", none), ("m2", none)] 10 5
        (Except.ok (some [⟨Id.num 0,
          ResponsePayload.error ⟨-32000, "boom", none⟩⟩]))).1
      = Except.ok ⟨0, [Except.error ⟨-32000, "boom", none⟩], 1⟩
    ∧ (BatchOk.responses
        (⟨0, [Except.error ⟨-32000, "boom", none⟩], 1⟩ : BatchOk Nat)).length = 1
    ∧ [("m1", (none : Option String)), ("m2", none)].length = 2 := by
  exact ⟨by decide, by decide, by decide⟩

/-- Witness for C2: a singleton batch from counter `0` allocates range
`[0, 1)` and the single in-range reply is scattered to slot 0. -/
theorem C2_witness :
    generate_batch_id_range (IdKind.number.into_id 0) 1 = Except.ok (0, 1)
    ∧ ∃ out : BatchOk Nat,
        batch_request (fun n : Nat => some n) IdKind.number ⟨0⟩ [("m1", none)]
            10 5 (Except.ok (some [⟨Id.num 0, ResponsePayload.success 7⟩]))
          = (Except.ok out, ⟨1⟩)
        ∧ out.responses.length = 1
        ∧ (∀ rp ∈ [(⟨Id.num 0, ResponsePayload.success 7⟩ : Response Nat)],
            ∀ n res, rp.id.try_parse_inner_as_number = Except.ok n →
            entryResult (fun k : Nat => some k) rp = Except.ok res →
            out.responses[n - 0]? = some res) :=
  C2_batch_range_and_scatter (fun n : Nat => some n) IdKind.number ⟨0⟩
    [("m1", none)] 10 5 [⟨Id.num 0, ResponsePayload.success 7⟩]
    (by decide) rfl (by decide) (by decide)
    (fun rp hrp => by
      rw [List.mem_singleton] at hrp
      subst hrp
      exact ⟨⟨0, rfl, Nat.le_refl 0, by decide⟩, Except.ok 7, rfl⟩)
    (List.pairwise_singleton _ _)

/-- Claim C3, amended.  For a batch that reaches the reply-decoding stage:
(a) per-entry protocol errors are isolated — when every decoded reply entry
is an error envelope with a parseable in-range identifier, the whole call
still returns `Ok`, with zero successful and all entries failed; but (b) a
failure to decode one entry's result payload into the caller's target type
is NOT recorded per-entry: the first such failure aborts the whole batch
call with a `parseError` (the bare `?` on `serde_json::from_str` at
client.rs line 449), so result-decode failures join transport, timeout,
allocation and identifier-integrity failures as whole-call failures. -/
theorem C3_batch_error_isolation {Raw R : Type} (decodeR : Raw → Option R)
    (kind : IdKind) (st : ClientState)
    (batch : List (String × Option String)) (T arrival : Nat)
    (rps : List (Response Raw)) (base stop : Nat)
    (hne : batch ≠ [])
    (hgen : generate_batch_id_range (kind.into_id st.counter) batch.length
      = Except.ok (base, stop))
    (harr : arrival ≤ T) :
    ((∀ rp ∈ rps, (∃ e, rp.payload = ResponsePayload.error e)
        ∧ ∃ n, rp.id.try_parse_inner_as_number = Except.ok n
          ∧ base ≤ n ∧ n - base < rps.length) →
      ∃ out : BatchOk R,
        batch_request decodeR kind st batch T arrival (Except.ok (some rps))
          = (Except.ok out, ⟨st.counter + 1⟩)
        ∧ out.successful = 0 ∧ out.failed = rps.length)
    ∧ (∀ l1 rp l2, rps = l1 ++ rp :: l2 →
        (∀ x ∈ l1,
          (∃ n, x.id.try_parse_inner_as_number = Except.ok n
            ∧ base ≤ n ∧ n - base < rps.length)
          ∧ ∃ res, entryResult decodeR x = Except.ok res) →
        ∀ n raw, rp.id.try_parse_inner_as_number = Except.ok n →
        rp.payload = ResponsePayload.success raw →
        decodeR raw = none →
        batch_request decodeR kind st batch T arrival (Except.ok (some rps))
          = (Except.error RpcError.parseError, ⟨st.counter + 1⟩)) := by
  constructor
  · intro herr
    obtain ⟨pout, hpout⟩ := batchLoop_total decodeR base rps 0 0
      (List.replicate rps.length (Except.error placeholderError))
      (fun rp hrp => by
        obtain ⟨⟨e, hpay⟩, n, hpn, hge2, hlt2⟩ := herr rp hrp
        refine ⟨⟨n, hpn, hge2, by rwa [List.length_replicate]⟩,
          Except.error e, ?_⟩
        simp only [entryResult, ResponseSuccess.try_from, hpay])
    have hpr : processReplies decodeR base rps = Except.ok pout := by
      simpa [processReplies] using hpout
    have hsum := batchLoop_sum decodeR base rps 0 0 _ _ hpout
    have hsucc := batchLoop_succ_of_errors decodeR base rps 0 0 _ _ hpout
      (fun rp hrp => (herr rp hrp).1)
    refine ⟨⟨pout.1, pout.2.2, pout.2.1⟩, ?_, hsucc, ?_⟩
    · rw [batch_request_eq decodeR kind st batch T arrival rps base stop
        hne hgen harr]
      simp only [hpr]
    · simp only [BatchOk.failed]
      omega
  · intro l1 rp l2 hsplit hgood1 n raw hpn hpay hdec
    have habort := batchLoop_abort_decode decodeR base l1 rp l2 0 0
      (List.replicate rps.length (Except.error placeholderError))
      (fun x hx => by
        have := hgood1 x hx
        rwa [List.length_replicate])
      n raw hpn hpay hdec
    have hpr : processReplies decodeR base rps
        = Except.error RpcError.parseError := by
      rw [processReplies, hsplit]
      rw [hsplit] at habort
      exact habort
    rw [batch_request_eq decodeR kind st batch T arrival rps base stop
      hne hgen harr]
    simp only [hpr]

/-- Claim C3 counterexample.  A singleton batch whose one reply is a success
envelope with a result payload that does not decode into the caller's target
type: the claim requires a per-entry Parse error and an `Ok` overall
outcome, but the whole call fails with `parseError`. -/
theorem C3_counterexample :
    (batch_request (fun _ : Nat => (none : Option Nat)) IdKind.number ⟨0⟩
        [("m1", none)] 10 5
        (Except.ok (some [⟨Id.num 0, ResponsePayload.success 7⟩]))).1
      = Except.error RpcError.parseError := by
  decide

/-- Witness for C3: (a) a batch of two replies that are both error envelopes
returns `Ok` with `successful = 0` and `failed = 2`; (b) instantiating the
abort clause at a singleton batch whose reply's result does not decode
yields the whole-call `parseError`. -/
theorem C3_witness :
    (∃ out : BatchOk Nat,
      batch_request (fun n : Nat => some n) IdKind.number ⟨0⟩
          [("m1", none), ("m2", none)] 10 5
          (Except.ok (some [⟨Id.num 0, ResponsePayload.error ⟨1, "a", none⟩⟩,
            ⟨Id.num 1, ResponsePayload.error ⟨2, "b", none⟩⟩]))
        = (Except.ok out, ⟨1⟩)
      ∧ out.successful = 0 ∧ out.failed = 2)
    ∧ batch_request (fun _ : Nat => (none : Option Nat)) IdKind.number ⟨0⟩
          [("m1", none)] 10 5
          (Except.ok (some [⟨Id.num 0, ResponsePayload.success 7⟩]))
        = (Except.error RpcError.parseError, ⟨1⟩) := by
  constructor
  · exact (C3_batch_error_isolation (fun n : Nat => some n) IdKind.number ⟨0⟩
      [("m1", none), ("m2", none)] 10 5
      [⟨Id.num 0, ResponsePayload.error ⟨1, "a", none⟩⟩,
        ⟨Id.num 1, ResponsePayload.error ⟨2, "b", none⟩⟩] 0 2
      (by decide) rfl (by decide)).1
      (by
        intro rp hrp
        rcases List.mem_cons.mp hrp with rfl | hrp2
        · exact ⟨⟨⟨1, "a", none⟩, rfl⟩, 0, rfl, Nat.le_refl 0, by decide⟩
        · rw [List.mem_singleton] at hrp2
          subst hrp2
          exact ⟨⟨⟨2, "b", none⟩, rfl⟩, 1, rfl, by decide, by decide⟩)
  · exact (C3_batch_error_isolation (fun _ : Nat => (none : Option Nat))
      IdKind.number ⟨0⟩ [("m1", none)] 10 5
      [⟨Id.num 0, ResponsePayload.success 7⟩] 0 1
      (by decide) rfl (by decide)).2
      [] ⟨Id.num 0, ResponsePayload.success 7⟩ [] rfl
      (fun x hx => absurd hx (List.not_mem_nil x))
      0 7 rfl rfl rfl

theorem allocStep_counter (op : ClientOp) (st : ClientState) :
    (allocStep op st).2 = ⟨st.counter + 1⟩ := by
  cases op with
  | single => rfl
  | batchAlloc n =>
    rcases h : generate_batch_id_range
      (IdKind.number.into_id st.counter) n with e | r
    · simp [allocStep, next_request_id, h]
    · simp [allocStep, next_request_id, h]

theorem runOps_single_lb :
    ∀ (ops : List ClientOp) (st : ClientState),
    ∀ x ∈ singleIds (runOps ops st).1, st.counter ≤ x := by
  intro ops
  induction ops with
  | nil => intro st x hx; simp [runOps, singleIds] at hx
  | cons op rest ih =>
    intro st x hx
    have hst2 : (allocStep op st).2 = ⟨st.counter + 1⟩ :=
      allocStep_counter op st
    simp only [runOps] at hx
    cases op with
    | single =>
      have hfst : (allocStep ClientOp.single st).1
          = Issued.singleId st.counter := rfl
      rw [hfst] at hx
      simp only [singleIds, List.filterMap_cons] at hx
      rcases List.mem_cons.mp hx with rfl | hx2
      · exact Nat.le_refl _
      · have := ih (allocStep ClientOp.single st).2 x hx2
        rw [hst2] at this
        have h2 : st.counter + 1 ≤ x := this
        omega
    | batchAlloc n =>
      rcases h : generate_batch_id_range
        (IdKind.number.into_id st.counter) n with e | r
      · have hfst : (allocStep (ClientOp.batchAlloc n) st).1
            = Issued.allocFailed := by
          simp [allocStep, next_request_id, h]
        rw [hfst] at hx
        simp only [singleIds, List.filterMap_cons] at hx
        have := ih (allocStep (ClientOp.batchAlloc n) st).2 x hx
        rw [hst2] at this
        have h2 : st.counter + 1 ≤ x := this
        omega
      · have hfst : (allocStep (ClientOp.batchAlloc n) st).1
            = Issued.range r.1 r.2 := by
          simp [allocStep, next_request_id, h]
        rw [hfst] at hx
        simp only [singleIds, List.filterMap_cons] at hx
        have := ih (allocStep (ClientOp.batchAlloc n) st).2 x hx
        rw [hst2] at this
        have h2 : st.counter + 1 ≤ x := this
        omega

/-- Claim C4, amended.  Identifier allocation on the shared counter: (a) the
identifiers issued to single calls over any linearized interleaving of
single-call and batch allocations are strictly increasing in issue order —
no single-call identifier is ever issued twice; but (b) a batch allocation
advances the shared counter by exactly one regardless of the batch size,
while claiming the whole range `[base, base + N)` — so for `N ≥ 2` the
range overlaps identifiers issued to subsequent operations (the next
operation draws `base + 1`).  Range allocation is therefore NOT atomic
reservation of `N` counter values, and the no-reuse invariant fails for
batches, as the counterexample shows. -/
theorem C4_identifier_allocation :
    (∀ (ops : List ClientOp) (st : ClientState),
      (singleIds (runOps ops st).1).Pairwise (· < ·))
    ∧ (∀ (st : ClientState) (n : Nat), st.counter + n ≤ U64MAX →
      allocStep (ClientOp.batchAlloc n) st
        = (Issued.range st.counter (st.counter + n), ⟨st.counter + 1⟩)) := by
  constructor
  · intro ops
    induction ops with
    | nil => intro st; simp [runOps, singleIds]
    | cons op rest ih =>
      intro st
      have hst2 : (allocStep op st).2 = ⟨st.counter + 1⟩ :=
        allocStep_counter op st
      simp only [runOps]
      cases op with
      | single =>
        have hfst : (allocStep ClientOp.single st).1
            = Issued.singleId st.counter := rfl
        rw [hfst]
        simp only [singleIds, List.filterMap_cons]
        refine List.pairwise_cons.mpr ⟨?_, ih (allocStep ClientOp.single st).2⟩
        intro x hx
        have := runOps_single_lb rest (allocStep ClientOp.single st).2 x hx
        rw [hst2] at this
        have h2 : st.counter + 1 ≤ x := this
        omega
      | batchAlloc n =>
        rcases h : generate_batch_id_range
          (IdKind.number.into_id st.counter) n with e | r
        · have hfst : (allocStep (ClientOp.batchAlloc n) st).1
              = Issued.allocFailed := by
            simp [allocStep, next_request_id, h]
          rw [hfst]
          simpa only [singleIds, List.filterMap_cons]
            using ih (allocStep (ClientOp.batchAlloc n) st).2
        · have hfst : (allocStep (ClientOp.batchAlloc n) st).1
              = Issued.range r.1 r.2 := by
            simp [allocStep, next_request_id, h]
          rw [hfst]
          simpa only [singleIds, List.filterMap_cons]
            using ih (allocStep (ClientOp.batchAlloc n) st).2
  · intro st n hn
    have h : generate_batch_id_range (IdKind.number.into_id st.counter) n
        = Except.ok (st.counter, st.counter + n) := by
      simp only [generate_batch_id_range, IdKind.into_id,
        Id.try_parse_inner_as_number]
      rw [if_pos hn]
    simp [allocStep, next_request_id, h]

/-- Claim C4 counterexample.  From counter `0`, a batch of 2 allocates the
range `[0, 2)` but advances the counter only to `1`; the next single call is
then issued identifier `1`, which lies inside the still-outstanding batch
range — an identifier issued twice while a claim on it could be
outstanding, refuting both the no-overlap and the atomic-reservation parts
of the claim. -/
theorem C4_counterexample :
    (runOps [ClientOp.batchAlloc 2, ClientOp.single] ⟨0⟩).1
      = [Issued.range 0 2, Issued.singleId 1]
    ∧ Issued.covers 1 (Issued.range 0 2)
    ∧ Issued.covers 1 (Issued.singleId 1) :=
  ⟨by decide, ⟨Nat.zero_le 1, Nat.lt_succ_self 1⟩, rfl⟩

/-- Witness for C4: a batch of 3 from counter `0` yields the range `[0, 3)`
with the counter left at `1`, and two consecutive single calls issue
strictly increasing identifiers. -/
theorem C4_witness :
    allocStep (ClientOp.batchAlloc 3) ⟨0⟩ = (Issued.range 0 3, ⟨1⟩)
    ∧ (singleIds
        (runOps [ClientOp.single, ClientOp.single] ⟨0⟩).1).Pairwise (· < ·) :=
  ⟨C4_identifier_allocation.2 ⟨0⟩ 3 (by decide),
   C4_identifier_allocation.1 [ClientOp.single, ClientOp.single] ⟨0⟩⟩

/-- Claim C5, amended.  A decoded batch reply entry whose recovered slot
`identifier − base` falls outside `[0, M)` — where `M` is the number of
decoded reply entries, NOT the number of requests `N` — fails the whole
batch call with `InvalidRequestId` naming that identifier, provided the
entries before it were processable.  (The unamended claim stated the bound
`[0, N)`; the source bounds the slot by the reply count because the slot
vector is sized by `json_rps.len()`, so when the server sends more entries
than requests, identifiers up to `base + M - 1` that the client never issued
are accepted — see the counterexample.) -/
theorem C5_batch_out_of_range_id {Raw R : Type} (decodeR : Raw → Option R)
    (kind : IdKind) (st : ClientState)
    (batch : List (String × Option String)) (T arrival : Nat)
    (rps : List (Response Raw)) (base stop : Nat)
    (hne : batch ≠ [])
    (hgen : generate_batch_id_range (kind.into_id st.counter) batch.length
      = Except.ok (base, stop))
    (harr : arrival ≤ T) :
    ∀ l1 rp l2, rps = l1 ++ rp :: l2 →
      (∀ x ∈ l1,
        (∃ n, x.id.try_parse_inner_as_number = Except.ok n
          ∧ base ≤ n ∧ n - base < rps.length)
        ∧ ∃ res, entryResult decodeR x = Except.ok res) →
      ∀ n res, rp.id.try_parse_inner_as_number = Except.ok n →
      entryResult decodeR rp = Except.ok res →
      ¬(base ≤ n ∧ n - base < rps.length) →
      batch_request decodeR kind st batch T arrival (Except.ok (some rps))
        = (Except.error (RpcError.invalidRequestId
            (InvalidRequestId.notPendingRequest (toString n))),
           ⟨st.counter + 1⟩) := by
  intro l1 rp l2 hsplit hgood1 n res hpn hres hbad
  have habort := batchLoop_abort_slot decodeR base l1 rp l2 0 0
    (List.replicate rps.length (Except.error placeholderError))
    (fun x hx => by
      have := hgood1 x hx
      rwa [List.length_replicate])
    n res hpn hres (by rwa [List.length_replicate])
  have hpr : processReplies decodeR base rps
      = Except.error (RpcError.invalidRequestId
          (InvalidRequestId.notPendingRequest (toString n))) := by
    rw [processReplies, hsplit]
    rw [hsplit] at habort
    exact habort
  rw [batch_request_eq decodeR kind st batch T arrival rps base stop
    hne hgen harr]
  simp only [hpr]

/-- Claim C5 counterexample.  A batch of `N = 1` request is answered with
`M = 2` reply entries carrying identifiers `0` and `1`.  Identifier `1` has
slot `1`, outside `[0, N) = [0, 1)`, so the claim requires the whole call to
fail with `InvalidRequestId`; but the slot vector has length `M = 2`, the
entry is accepted into slot 1, and the call returns `Ok`. -/
theorem C5_counterexample :
    (batch_request (fun n : Nat => some n) IdKind.number ⟨0⟩ [("m1", none)]
        10 5
        (Except.ok (some [⟨Id.num 0, ResponsePayload.error ⟨1, "a", none⟩⟩,
          ⟨Id.num 1, ResponsePayload.error ⟨2, "b", none⟩⟩]))).1
      = Except.ok ⟨0, [Except.error ⟨1, "a", none⟩,
          Except.error ⟨2, "b", none⟩], 2⟩
    ∧ (1 : Nat) - 0 ≥ [("m1", (none : Option String))].length := by
  exact ⟨by decide, by decide⟩

/-- Witness for C5: a singleton batch (`base = 0`, one reply entry) answered
by an entry carrying identifier `5` — slot `5` is outside `[0, M) = [0, 1)`
and the whole call fails with `InvalidRequestId` naming `5`. -/
theorem C5_witness :
    batch_request (fun n : Nat => some n) IdKind.number ⟨0⟩ [("m1", none)]
        10 5
        (Except.ok (some [⟨Id.num 5, ResponsePayload.error ⟨1, "a", none⟩⟩]))
      = (Except.error (RpcError.invalidRequestId
          (InvalidRequestId.notPendingRequest (toString 5))), ⟨1⟩) :=
  C5_batch_out_of_range_id (fun n : Nat => some n) IdKind.number ⟨0⟩
    [("m1", none)] 10 5
    [⟨Id.num 5, ResponsePayload.error ⟨1, "a", none⟩⟩] 0 1
    (by decide) rfl (by decide)
    [] ⟨Id.num 5, ResponsePayload.error ⟨1, "a", none⟩⟩ [] rfl
    (fun x hx => absurd hx (List.not_mem_nil x))
    5 (Except.error ⟨1, "a", none⟩) rfl rfl (by decide)

/-- Claim C6 (confirmed).  For every call — single request, notification, or
batch — whose transport operation would complete only after the configured
timeout `T` has elapsed, the call fails with the `requestTimeout` error
whatever the transport's eventual outcome would have been; in particular a
late successful reply is never surfaced and the `Ok` outcome of a timed-out
call is unreachable. -/
theorem C6_timeout {Raw R : Type} (decodeR : Raw → Option R) (kind : IdKind)
    (st : ClientState) (p : Option String)
    (batch : List (String × Option String)) (T arrival : Nat)
    (tr1 : Except Unit (Option (Response Raw)))
    (tr2 : Except Unit Unit)
    (tr3 : Except Unit (Option (List (Response Raw))))
    (hT : T < arrival) :
    (request decodeR kind st (some p) T arrival tr1).1
      = Except.error RpcError.requestTimeout
    ∧ (notification st (some p) T arrival tr2).1
      = Except.error RpcError.requestTimeout
    ∧ (∀ base stop, batch ≠ [] →
        generate_batch_id_range (kind.into_id st.counter) batch.length
          = Except.ok (base, stop) →
        (batch_request (R := R) decodeR kind st batch T arrival tr3).1
          = Except.error RpcError.requestTimeout) := by
  have hnle : ¬ arrival ≤ T := Nat.not_le.mpr hT
  refine ⟨?_, ?_, ?_⟩
  · simp [request, next_request_id, raceTimeout, if_neg hnle]
  · simp [notification, raceTimeout, if_neg hnle]
  · intro base stop hne hgen
    have hemp : batch.isEmpty = false := List.isEmpty_eq_false.mpr hne
    simp [batch_request, hemp, next_request_id, hgen, raceTimeout,
      if_neg hnle]

/-- Witness for C6: with timeout `1` and a transport success that would
arrive at time `2`, a single request fails with `requestTimeout` even though
the late reply carried a valid matching result. -/
theorem C6_witness :
    (request (fun n : Nat => some n) IdKind.number ⟨0⟩ (some none) 1 2
        (Except.ok (some ⟨Id.num 0, ResponsePayload.success 42⟩))).1
      = Except.error RpcError.requestTimeout :=
  (C6_timeout (fun n : Nat => some n) IdKind.number ⟨0⟩ none [] 1 2
    (Except.ok (some ⟨Id.num 0, ResponsePayload.success 42⟩))
    (Except.ok ()) (Except.ok none) (by decide)).1

/-- Claim C7 (confirmed).  Both subscription entry points return the fixed
"subscriptions unsupported over this transport" error
(`Error::HttpNotImplemented`) for every input, and leave the client's shared
state untouched: their source bodies are a bare `Err(Error::HttpNotImplemented)`
that performs no serialization, draws no identifier, acquires no gate permit
and invokes no transport operation. -/
theorem C7_subscriptions_unsupported :
    ∀ (st : ClientState) (subM : String) (params : Option String)
      (unsubM m : String),
      subscribe st subM params unsubM
        = (Except.error RpcError.httpNotImplemented, st)
      ∧ subscribe_to_method st m
        = (Except.error RpcError.httpNotImplemented, st) :=
  fun _ _ _ _ _ => ⟨rfl, rfl⟩

/-- Claim C8, amended.  Identifier assignment in the serialized batch
envelope is positional — entry `i` carries the range value `base + i` —
but each value is converted through the configured `IdKind`: under the
numeric kind entry `i` carries the integer identifier `base + i`, while
under the string kind it carries the string identifier holding the decimal
rendering of `base + i`.  (The unamended claim asserted the entries are
always integer-identified regardless of `IdKind`; the source converts each
range value with `self.id_manager.as_id_kind().into_id(id)` at client.rs
line 417, so the string preference does apply to batches — see the
counterexample.) -/
theorem C8_batch_envelope_ids (kind : IdKind) (base : Nat)
    (batch : List (String × Option String)) :
    (buildBatchEnvelope kind base batch).map RequestSer.id
      = (List.range' base batch.length).map kind.into_id
    ∧ (∀ i : Nat, i < batch.length →
        ((buildBatchEnvelope kind base batch).map RequestSer.id)[i]?
          = some (kind.into_id (base + i))) := by
  have hzip : (batch.zip (List.range' base batch.length)).map Prod.snd
      = List.range' base batch.length :=
    List.map_snd_zip _ _ (by rw [List.length_range'])
  have hmap : (buildBatchEnvelope kind base batch).map RequestSer.id
      = (List.range' base batch.length).map kind.into_id := by
    rw [← hzip, List.map_map, buildBatchEnvelope, List.map_map]
    rfl
  refine ⟨hmap, ?_⟩
  intro i hi
  rw [hmap, List.getElem?_map, List.getElem?_range' base 1 hi]
  simp [Nat.one_mul]

/-- Claim C8 counterexample.  With the string identifier kind configured and
`base = 5`, a batch of two entries is serialized with the string identifiers
`"5"` and `"6"` — not the integer identifiers `5` and `6` the claim
requires. -/
theorem C8_counterexample :
    (buildBatchEnvelope IdKind.string 5
        [("m1", none), ("m2", none)]).map RequestSer.id
      = [Id.str "5", Id.str "6"]
    ∧ Id.str "5" ≠ Id.num 5 := by
  exact ⟨by decide, by decide⟩

/-- Witness for C8: under the numeric kind with `base = 5`, entry `0` of a
two-entry batch carries the integer identifier `5`. -/
theorem C8_witness :
    ((buildBatchEnvelope IdKind.number 5
        [("m1", none), ("m2", none)]).map RequestSer.id)[0]?
      = some (IdKind.number.into_id (5 + 0)) :=
  (C8_batch_envelope_ids IdKind.number 5 [("m1", none), ("m2", none)]).2
    0 (by decide)

/-- Claim C9 (confirmed).  After a batch call that returns `Ok`, every slot
of the returned positional sequence that no decoded reply entry's identifier
mapped onto still holds the pre-initialized placeholder error object — code
`0`, empty message, no data — exactly as a server-sent error of that shape
would appear; such a slot was counted in neither `successful_calls` nor
`failed_calls` (the counters change only per decoded reply entry, see the
C10 theorem). -/
theorem C9_missing_slot_placeholder {Raw R : Type} (decodeR : Raw → Option R)
    (kind : IdKind) (st : ClientState)
    (batch : List (String × Option String)) (T arrival : Nat)
    (rps : List (Response Raw)) (out : BatchOk R) (st2 : ClientState)
    (base stop j : Nat)
    (hgen : generate_batch_id_range (kind.into_id st.counter) batch.length
      = Except.ok (base, stop))
    (hrun : batch_request decodeR kind st batch T arrival
      (Except.ok (some rps)) = (Except.ok out, st2))
    (hj : j < rps.length)
    (hmiss : ∀ rp ∈ rps, ∀ n,
      rp.id.try_parse_inner_as_number = Except.ok n → n - base ≠ j) :
    out.responses[j]? = some (Except.error placeholderError) := by
  by_cases hb : batch.isEmpty = true
  · simp [batch_request, hb] at hrun
  · have hne : batch ≠ [] :=
      List.isEmpty_eq_false.mp (eq_false_of_ne_true hb)
    by_cases harr : arrival ≤ T
    · rw [batch_request_eq decodeR kind st batch T arrival rps base stop
        hne hgen harr] at hrun
      rcases hpr : processReplies (R := R) decodeR base rps with e | pout
      · rw [hpr] at hrun
        simp at hrun
      · rw [hpr] at hrun
        simp only [Prod.mk.injEq, Except.ok.injEq] at hrun
        obtain ⟨rfl, -⟩ := hrun
        have hpl : batchLoop decodeR base rps
            (0, 0, List.replicate rps.length (Except.error placeholderError))
            = Except.ok pout := by
          simpa [processReplies] using hpr
        have hframe := batchLoop_frame decodeR base j rps 0 0 _ _ hpl hmiss
        simp only [BatchOk.responses]
        rw [hframe, List.getElem?_replicate, if_pos hj]
    · have hemp : batch.isEmpty = false := List.isEmpty_eq_false.mpr hne
      have hnle : ¬ arrival ≤ T := harr
      simp [batch_request, hemp, next_request_id, hgen, raceTimeout,
        if_neg hnle] at hrun

/-- Witness for C9: a batch of two requests is answered by two reply entries
that both carry identifier `0`; slot `1` receives no reply and the returned
sequence holds the placeholder error object at position 1. -/
theorem C9_witness :
    (BatchOk.responses (⟨0, [Except.error ⟨2, "b", none⟩,
        Except.error placeholderError], 2⟩ : BatchOk Nat))[1]?
      = some (Except.error placeholderError) :=
  C9_missing_slot_placeholder (fun n : Nat => some n) IdKind.number ⟨0⟩
    [("m1", none), ("m2", none)] 10 5
    [⟨Id.num 0, ResponsePayload.error ⟨1, "a", none⟩⟩,
      ⟨Id.num 0, ResponsePayload.error ⟨2, "b", none⟩⟩]
    ⟨0, [Except.error ⟨2, "b", none⟩, Except.error placeholderError], 2⟩
    ⟨1⟩ 0 2 1 rfl (by decide) (by decide)
    (fun rp hrp n hn => by
      rcases List.mem_cons.mp hrp with rfl | hrp2
      · simp [Id.try_parse_inner_as_number] at hn
        omega
      · rw [List.mem_singleton] at hrp2
        subst hrp2
        simp [Id.try_parse_inner_as_number] at hn
        omega)

/-- Claim C10 (confirmed).  Whenever a batch call returns `Ok`, the counts
satisfy `successful_calls + failed_calls = M`, where `M` is the number of
entries in the decoded server reply array: each decoded reply entry is
counted exactly once — including duplicate-identifier entries that
overwrite the same slot — and `M` need not equal the number of requests
sent (see the witness, where one request receives two counted replies). -/
theorem C10_counts_sum {Raw R : Type} (decodeR : Raw → Option R)
    (kind : IdKind) (st : ClientState)
    (batch : List (String × Option String)) (T arrival : Nat)
    (rps : List (Response Raw)) (out : BatchOk R) (st2 : ClientState)
    (hrun : batch_request decodeR kind st batch T arrival
      (Except.ok (some rps)) = (Except.ok out, st2)) :
    out.successful + out.failed = rps.length := by
  by_cases hb : batch.isEmpty = true
  · simp [batch_request, hb] at hrun
  · have hemp : batch.isEmpty = false := eq_false_of_ne_true hb
    simp only [batch_request, hemp, Bool.false_eq_true, if_false,
      next_request_id] at hrun
    rcases hg : generate_batch_id_range (kind.into_id st.counter)
      batch.length with e | r
    · rw [hg] at hrun
      simp at hrun
    · rw [hg] at hrun
      by_cases harr : arrival ≤ T
      · simp only [raceTimeout, if_pos harr] at hrun
        rcases hpr : processReplies (R := R) decodeR r.1 rps with e2 | pout
        · rw [hpr] at hrun
          simp at hrun
        · rw [hpr] at hrun
          simp only [Prod.mk.injEq, Except.ok.injEq] at hrun
          obtain ⟨rfl, -⟩ := hrun
          have hpl : batchLoop decodeR r.1 rps
              (0, 0, List.replicate rps.length
                (Except.error placeholderError))
              = Except.ok pout := by
            simpa [processReplies] using hpr
          have hsum := batchLoop_sum decodeR r.1 rps 0 0 _ _ hpl
          simpa using hsum
      · simp only [raceTimeout, if_neg harr] at hrun
        simp at hrun

/-- Witness for C10: a batch of one request answered by two decoded reply
entries (identifiers `0` and `1`, both error envelopes) returns `Ok` with
`successful_calls + failed_calls = 2`, the reply count — not `1`, the
number of requests sent. -/
theorem C10_witness :
    (0 : Nat) + (2 : Nat) = 2
    ∧ BatchOk.successful (⟨0, [Except.error ⟨1, "a", none⟩,
          Except.error ⟨2, "b", none⟩], 2⟩ : BatchOk Nat)
        + BatchOk.failed (⟨0, [Except.error ⟨1, "a", none⟩,
          Except.error ⟨2, "b", none⟩], 2⟩ : BatchOk Nat) = 2 :=
  ⟨rfl,
    C10_counts_sum (fun n : Nat => some n) IdKind.number ⟨0⟩ [("m1", none)]
      10 5
      [⟨Id.num 0, ResponsePayload.error ⟨1, "a", none⟩⟩,
        ⟨Id.num 1, ResponsePayload.error ⟨2, "b", none⟩⟩]
      ⟨0, [Except.error ⟨1, "a", none⟩, Except.error ⟨2, "b", none⟩], 2⟩
      ⟨1⟩ (by decide)⟩

end Jsonrpsee
